import Mathlib

/-!
Verification of the room/session orchestration layer of the `connected`
media server (signaling handler, HLS playback supervisor, file-injection
supervisor).  The TypeScript sources are shallowly embedded: the process-wide
mutable maps become fields of an explicit `ServerState`, each socket handler
becomes a state-transition function, and every externally visible side effect
(closing a producer, killing ffmpeg, spawning ffmpeg, emitting a socket
notification, ...) is appended to an event trace so that ordering and
resource-release properties can be stated.
-/

namespace Connected

/-! ## Association-list maps (embedding of the JS `Map` objects) -/

/-- Lookup in an association list; mirrors `Map.get`. -/
def mget {α β : Type} [DecidableEq α] : List (α × β) → α → Option β
  | [], _ => none
  | (k', v) :: t, k => if k' = k then some v else mget t k

/-- Remove every binding of a key; mirrors `Map.delete`. -/
def mdel {α β : Type} [DecidableEq α] : List (α × β) → α → List (α × β)
  | [], _ => []
  | (k', v) :: t, k => if k' = k then mdel t k else (k', v) :: mdel t k

/-- Insert/replace a binding; mirrors `Map.set`. -/
def mset {α β : Type} [DecidableEq α] (m : List (α × β)) (k : α) (v : β) :
    List (α × β) :=
  (k, v) :: mdel m k

/-- Number of bindings carrying a given key. -/
def countKeys {α β : Type} [DecidableEq α] : List (α × β) → α → Nat
  | [], _ => 0
  | (k', _) :: t, k => (if k' = k then 1 else 0) + countKeys t k

/-- Remove a string from a list-as-set; mirrors `Set.delete`. -/
def sdelete : List String → String → List String
  | [], _ => []
  | y :: t, x => if y = x then sdelete t x else y :: sdelete t x

theorem mget_mdel_self {α β : Type} [DecidableEq α] (m : List (α × β)) (k : α) :
    mget (mdel m k) k = none := by
  induction m with
  | nil => rfl
  | cons h t ih =>
    obtain ⟨k', v⟩ := h
    by_cases hk : k' = k <;> simp [mdel, mget, hk, ih]

theorem mget_mset_self {α β : Type} [DecidableEq α] (m : List (α × β)) (k : α)
    (v : β) : mget (mset m k v) k = some v := by
  simp [mset, mget]

theorem mget_mdel_ne {α β : Type} [DecidableEq α] (m : List (α × β)) {k k' : α}
    (h : k' ≠ k) : mget (mdel m k) k' = mget m k' := by
  induction m with
  | nil => rfl
  | cons hd t ih =>
    obtain ⟨k₀, v⟩ := hd
    by_cases h0 : k₀ = k
    · subst h0
      simp [mdel, mget, Ne.symm h, ih]
    · by_cases h1 : k₀ = k' <;> simp [mdel, mget, h0, h1, h, ih]

theorem mget_mset_ne {α β : Type} [DecidableEq α] (m : List (α × β)) {k k' : α}
    (v : β) (h : k' ≠ k) : mget (mset m k v) k' = mget m k' := by
  simp [mset, mget, Ne.symm h, mget_mdel_ne m h]

theorem countKeys_mdel_self {α β : Type} [DecidableEq α] (m : List (α × β))
    (k : α) : countKeys (mdel m k) k = 0 := by
  induction m with
  | nil => rfl
  | cons h t ih =>
    obtain ⟨k', v⟩ := h
    by_cases hk : k' = k <;> simp [mdel, countKeys, hk, ih]

theorem countKeys_mset_self {α β : Type} [DecidableEq α] (m : List (α × β))
    (k : α) (v : β) : countKeys (mset m k v) k = 1 := by
  simp [mset, countKeys, countKeys_mdel_self]

theorem not_mem_sdelete_self (l : List String) (x : String) :
    x ∉ sdelete l x := by
  induction l with
  | nil => simp [sdelete]
  | cons y t ih =>
    by_cases hy : y = x
    · simpa [sdelete, hy] using ih
    · simp [sdelete, hy, ih, Ne.symm hy]

theorem drop_length_append {α : Type} (l t : List α) :
    (l ++ t).drop l.length = t := by
  induction l with
  | nil => rfl
  | cons h tl ih => simp [ih]

/-! ## Data model -/

/-- Media kinds carried by producers (`'audio' | 'video'`). -/
inductive MediaKind
  | audio
  | video
deriving DecidableEq, Repr

/-- A mediasoup producer handle as the server records it: its id together
with the `appData.username` tag set at produce time. -/
structure ProducerRec where
  id : Nat
  appUsername : String
deriving DecidableEq, Repr

/-- A mediasoup consumer handle as the server records it: the remote producer
it consumes and its paused flag. -/
structure ConsumerRec where
  producerId : Nat
  paused : Bool
deriving DecidableEq, Repr

/-- Embeds `PeerProducerInfo` from the server: producer-side transport (initially
`null!`, hence `Option`), and the per-kind producer map. -/
structure PeerProducerInfo where
  producerTransport : Option Nat
  producers : List (MediaKind × ProducerRec)
deriving DecidableEq, Repr

/-- Embeds `PeerConsumerInfo` from the server: consumer-side transport and the
consumer map keyed by consumer id. -/
structure PeerConsumerInfo where
  consumerTransport : Option Nat
  consumers : List (Nat × ConsumerRec)
deriving DecidableEq, Repr

/-- The durable room record stored in Redis (`{ peers: string[] }`). -/
structure RoomData where
  peers : List String
deriving DecidableEq, Repr

/-- An HLS playback session (`HlsSession` in hls.ts).  The TS record fields
are optional but every stored session sets all three, so they are plain. -/
structure HlsSession where
  ffmpeg : Nat
  plainTransport : Nat
  consumer : Nat
deriving DecidableEq, Repr

/-- A file-injection session (`InjectSession` in injectFile.ts). -/
structure InjectSession where
  ffmpeg : Nat
  audioTransport : Nat
  videoTransport : Nat
  audioProducer : Nat
  videoProducer : Nat
deriving DecidableEq, Repr

/-- Observable side effects of the handlers, recorded in execution order. -/
inductive Event
  | producerClosed (id : Nat)
  | consumerClosed (id : Nat)
  | transportClosed (id : Nat)
  | ffmpegKilled (pid : Nat)
  | ffmpegSpawned (pid : Nat)
  | plainTransportCreated (id : Nat)
  | hlsConsumerCreated (id producerId : Nat) (paused : Bool)
  | sdpWritten (room : String)
  | hlsConsumerResumed (id : Nat)
  | injectProducerCreated (id payloadType ssrc : Nat)
  | webRtcTransportCreated (id : Nat)
  | transportConnected (id : Nat)
  | consumerCreated (id : Nat) (paused : Bool)
  | consumerResumed (id : Nat)
  | newProducerNotified (room user : String) (producerId : Nat)
  | peerLeft (room user : String)
  | meetingEnded (room : String)
  | routerClosed (room : String)
deriving DecidableEq, Repr

/-- The process-wide mutable state of the server: the module-level maps of
index.ts (`producerInfo`, `consumerInfo`, `hlsActiveRooms`), the Redis room
records, the supervisor session maps of hls.ts and injectFile.ts, a
fresh-id supply standing for the ids mediasoup / the OS hand out, and the
event trace. -/
structure ServerState where
  producerInfo : List (String × PeerProducerInfo)
  consumerInfo : List (String × PeerConsumerInfo)
  hlsActiveRooms : List String
  redis : List (String × RoomData)
  hlsSessions : List (String × HlsSession)
  injectSessions : List (String × InjectSession)
  nextId : Nat
  events : List Event
deriving DecidableEq, Repr

/-- Per-connection socket fields (`socket.roomId`, `socket.username`),
unset until a join completes. -/
structure SocketState where
  roomId : Option String
  username : Option String
deriving DecidableEq, Repr

/-- Key of the in-memory peer maps: `` `${roomId}:${username}` ``. -/
def peerKey (roomId username : String) : String :=
  roomId ++ ":" ++ username

/-! ## Handler result payloads -/

def errRoomExists : String := "Room already exists."

def errRoomNotFound : String := "Room not found."

def errProducerTransport : String := "Producer transport not found"

def errConsumerTransport : String := "Consumer transport not found."

/-- Acknowledgement payload of `transport-produce`. -/
inductive ProduceResult
  | ok (id : Nat)
  | err (msg : String)
deriving DecidableEq, Repr

/-- Acknowledgement payload of `consume`. -/
inductive ConsumeResult
  | ok (id producerId : Nat)
  | err (msg : String)
deriving DecidableEq, Repr

/-- Acknowledgement payload of `createWebRTCTransport`. -/
inductive TransportResult
  | ok (producerTransportId consumerTransportId : Nat)
  | err (msg : String)
deriving DecidableEq, Repr

/-- Acknowledgement payload of `joinRoom` (`rtpCapabilities?`,
`existingProducers?`, `error?`). -/
structure JoinResponse where
  rtpCapabilities : Bool
  existingProducers : Option (List (Nat × String))
  error : Option String
deriving DecidableEq, Repr

/-! ## Peer teardown (index.ts `cleanupPeer`) -/

/-- Embeds `cleanupPeer(roomId, username)`: close every producer and the producer
transport and delete the record if present; same for the consumer side. -/
def cleanupPeer (roomId username : String) (s : ServerState) : ServerState :=
  let pk := peerKey roomId username
  let s1 :=
    match mget s.producerInfo pk with
    | some rec =>
        { s with
          events := s.events ++
            rec.producers.map (fun p => Event.producerClosed p.2.id) ++
            (match rec.producerTransport with
             | some t => [Event.transportClosed t]
             | none => []),
          producerInfo := mdel s.producerInfo pk }
    | none => s
  match mget s1.consumerInfo pk with
  | some rec =>
      { s1 with
        events := s1.events ++
          rec.consumers.map (fun p => Event.consumerClosed p.1) ++
          (match rec.consumerTransport with
           | some t => [Event.transportClosed t]
           | none => []),
        consumerInfo := mdel s1.consumerInfo pk }
  | none => s1

/-! ## HLS playback supervisor (hls.ts) -/

/-- Embeds `startHlsRecording({roomId, producer, router})`, successful run: tear
down any previous session for the room (kill ffmpeg, close consumer, close
plain transport, delete the map entry), then create the plain transport,
create the relay consumer with `paused: true`, write the SDP, spawn ffmpeg,
resume the consumer, and record the session.  Fresh mediasoup/OS ids are
drawn from `nextId`.  The registered ffmpeg exit/error callbacks are
asynchronous and not part of this synchronous run. -/
def startHlsRecording (roomId : String) (producerId : Nat) (s : ServerState) :
    ServerState :=
  let s1 :=
    match mget s.hlsSessions roomId with
    | some prev =>
        { s with
          events := s.events ++
            [Event.ffmpegKilled prev.ffmpeg,
             Event.consumerClosed prev.consumer,
             Event.transportClosed prev.plainTransport],
          hlsSessions := mdel s.hlsSessions roomId }
    | none => s
  let tId := s1.nextId
  let cId := s1.nextId + 1
  let fPid := s1.nextId + 2
  { s1 with
    nextId := s1.nextId + 3,
    events := s1.events ++
      [Event.plainTransportCreated tId,
       Event.hlsConsumerCreated cId producerId true,
       Event.sdpWritten roomId,
       Event.ffmpegSpawned fPid,
       Event.hlsConsumerResumed cId],
    hlsSessions := mset s1.hlsSessions roomId ⟨fPid, tId, cId⟩ }

/-- Embeds `stopHlsRecording(roomId)`: no-op when no session exists; otherwise kill
ffmpeg, (asynchronously) close consumer and transport, delete the entry. -/
def stopHlsRecording (roomId : String) (s : ServerState) : ServerState :=
  match mget s.hlsSessions roomId with
  | none => s
  | some sess =>
      { s with
        events := s.events ++
          [Event.ffmpegKilled sess.ffmpeg,
           Event.consumerClosed sess.consumer,
           Event.transportClosed sess.plainTransport],
        hlsSessions := mdel s.hlsSessions roomId }

/-! ## File-injection supervisor (injectFile.ts) -/

/-- Embeds `injectFileIntoMediasoup({roomId, router, inputFile})`: tear down any
old session for the room, create the audio and video plain transports,
create the two producers with the fixed payload types (101/102) and SSRCs
(11111111/22222222) from the source, spawn ffmpeg, record the session. -/
def injectFileIntoMediasoup (roomId : String) (_inputFile : String)
    (s : ServerState) : ServerState :=
  let s1 :=
    match mget s.injectSessions roomId with
    | some old =>
        { s with
          events := s.events ++
            [Event.ffmpegKilled old.ffmpeg,
             Event.producerClosed old.audioProducer,
             Event.producerClosed old.videoProducer,
             Event.transportClosed old.audioTransport,
             Event.transportClosed old.videoTransport],
          injectSessions := mdel s.injectSessions roomId }
    | none => s
  let aT := s1.nextId
  let vT := s1.nextId + 1
  let aP := s1.nextId + 2
  let vP := s1.nextId + 3
  let f := s1.nextId + 4
  { s1 with
    nextId := s1.nextId + 5,
    events := s1.events ++
      [Event.plainTransportCreated aT,
       Event.plainTransportCreated vT,
       Event.injectProducerCreated aP 101 11111111,
       Event.injectProducerCreated vP 102 22222222,
       Event.ffmpegSpawned f],
    injectSessions := mset s1.injectSessions roomId ⟨f, aT, vT, aP, vP⟩ }

/-! ## External media engine boundary -/

/-- Does some producer with this id exist (peer producers and injection
producers)? -/
def producerExists (s : ServerState) (pid : Nat) : Bool :=
  s.producerInfo.any (fun pr => pr.2.producers.any (fun q => q.2.id == pid)) ||
  s.injectSessions.any
    (fun pr => pr.2.audioProducer == pid || pr.2.videoProducer == pid)

/-- Modelled from the spec: the external media engine's
`router.canConsume({producerId, rtpCapabilities})` (spec 6: "a compatibility
check between a target producer and a caller's capabilities").  The engine
reports `false` when the producer id is unknown; capability compatibility is
an input of the model (`compat`). -/
def canConsume (s : ServerState) (pid : Nat) (compat : Bool) : Bool :=
  producerExists s pid && compat

/-! ## Signaling handlers (index.ts socket handlers) -/

/-- Embeds `joinRoom`: unconditionally registers empty producer/consumer records
for the peer, then checks the durable room record; creator join fails if
the room exists, non-creator join fails if it does not; successful joins
write the updated peer list and (for non-creators) enumerate the other
peers' producers tagged with `appData.username`.  (Setting the socket
fields and `socket.join` are connection-local and not part of
`ServerState`.) -/
def joinRoom (username roomId : String) (isCreator : Bool) (s : ServerState) :
    ServerState × JoinResponse :=
  let pk := peerKey roomId username
  let s1 :=
    { s with
      producerInfo := mset s.producerInfo pk ⟨none, []⟩,
      consumerInfo := mset s.consumerInfo pk ⟨none, []⟩ }
  let roomExists := (mget s1.redis roomId).isSome
  if isCreator then
    if roomExists then
      (s1, ⟨false, none, some errRoomExists⟩)
    else
      ({ s1 with redis := mset s1.redis roomId ⟨[username]⟩ },
       ⟨true, none, none⟩)
  else
    if roomExists then
      match mget s1.redis roomId with
      | some roomData =>
          let existing :=
            (roomData.peers.map (fun other =>
              match mget s1.producerInfo (peerKey roomId other) with
              | some rec => rec.producers.map
                  (fun p => (p.2.id, p.2.appUsername))
              | none => [])).flatten
          ({ s1 with
             redis := mset s1.redis roomId ⟨roomData.peers ++ [username]⟩ },
           ⟨true, some existing, none⟩)
      | none => (s1, ⟨false, none, some errRoomNotFound⟩)
    else
      (s1, ⟨false, none, some errRoomNotFound⟩)

/-- Embeds `createWebRTCTransport`: silently ignored pre-join; otherwise creates the
two WebRTC transports and stores them on the peer's records.  A missing
record makes the JS non-null assertion throw, which the handler catches and
turns into an error acknowledgement (the transports were already created). -/
def createWebRTCTransport (sock : SocketState) (s : ServerState) :
    ServerState × Option TransportResult :=
  match sock.roomId, sock.username with
  | some roomId, some username =>
      let pk := peerKey roomId username
      let pId := s.nextId
      let cId := s.nextId + 1
      let s1 :=
        { s with
          nextId := s.nextId + 2,
          events := s.events ++
            [Event.webRtcTransportCreated pId,
             Event.webRtcTransportCreated cId] }
      match mget s1.producerInfo pk with
      | none => (s1, some (TransportResult.err errProducerTransport))
      | some prec =>
          let s2 :=
            { s1 with
              producerInfo := mset s1.producerInfo pk
                { prec with producerTransport := some pId } }
          match mget s2.consumerInfo pk with
          | none => (s2, some (TransportResult.err errConsumerTransport))
          | some crec =>
              ({ s2 with
                 consumerInfo := mset s2.consumerInfo pk
                   { crec with consumerTransport := some cId } },
               some (TransportResult.ok pId cId))
  | _, _ => (s, none)

/-- Embeds `transport-connect`: ignored pre-join; the optional chain skips the
connect call when the record is absent.  (When the record exists with a
null transport the JS call throws an unhandled rejection without mutating
server state; either way the state is unchanged apart from the connect.) -/
def transportConnect (sock : SocketState) (s : ServerState) : ServerState :=
  match sock.roomId, sock.username with
  | some roomId, some username =>
      match mget s.producerInfo (peerKey roomId username) with
      | some rec =>
          match rec.producerTransport with
          | some t => { s with events := s.events ++ [Event.transportConnected t] }
          | none => s
      | none => s
  | _, _ => s

/-- Embeds `transport-recv-connect`: the consumer-side analogue. -/
def transportRecvConnect (sock : SocketState) (s : ServerState) : ServerState :=
  match sock.roomId, sock.username with
  | some roomId, some username =>
      match mget s.consumerInfo (peerKey roomId username) with
      | some rec =>
          match rec.consumerTransport with
          | some t => { s with events := s.events ++ [Event.transportConnected t] }
          | none => s
      | none => s
  | _, _ => s

/-- Embeds `transport-produce`: ignored pre-join; errors if the producer transport
is missing; otherwise creates the producer, records it under its kind
(replacing any previous one without closing it), runs the first-video
HLS gating (start the recording and flag the room when the room is not in
`hlsActiveRooms`), emits the `new-producer` notification, and acknowledges
with the producer id.  The `@close` callback it registers is asynchronous
and not part of this run. -/
def transportProduce (sock : SocketState) (kind : MediaKind)
    (appUsername : String) (s : ServerState) :
    ServerState × Option ProduceResult :=
  match sock.roomId, sock.username with
  | some roomId, some username =>
      let pk := peerKey roomId username
      match mget s.producerInfo pk with
      | none => (s, some (ProduceResult.err errProducerTransport))
      | some rec =>
          match rec.producerTransport with
          | none => (s, some (ProduceResult.err errProducerTransport))
          | some _t =>
              let pid := s.nextId
              let s1 :=
                { s with
                  nextId := s.nextId + 1,
                  producerInfo := mset s.producerInfo pk
                    { rec with
                      producers := mset rec.producers kind ⟨pid, appUsername⟩ } }
              let s2 :=
                if kind = MediaKind.video then
                  if roomId ∈ s1.hlsActiveRooms then s1
                  else
                    let s' := startHlsRecording roomId pid s1
                    { s' with hlsActiveRooms := roomId :: s'.hlsActiveRooms }
                else s1
              ({ s2 with
                 events := s2.events ++
                   [Event.newProducerNotified roomId username pid] },
               some (ProduceResult.ok pid))
  | _, _ => (s, none)

/-- Embeds `consume`: ignored pre-join; errors if the consumer transport is
missing; if the engine's `canConsume` check passes, creates a consumer with
`paused: true`, records it under its id, and acknowledges; when the check
fails the handler falls through without invoking the callback at all. -/
def consume (sock : SocketState) (remoteProducerId : Nat) (compat : Bool)
    (s : ServerState) : ServerState × Option ConsumeResult :=
  match sock.roomId, sock.username with
  | some roomId, some username =>
      let pk := peerKey roomId username
      match mget s.consumerInfo pk with
      | none => (s, some (ConsumeResult.err errConsumerTransport))
      | some rec =>
          match rec.consumerTransport with
          | none => (s, some (ConsumeResult.err errConsumerTransport))
          | some _t =>
              if canConsume s remoteProducerId compat then
                let cid := s.nextId
                ({ s with
                   nextId := s.nextId + 1,
                   events := s.events ++ [Event.consumerCreated cid true],
                   consumerInfo := mset s.consumerInfo pk
                     { rec with
                       consumers := mset rec.consumers cid
                         ⟨remoteProducerId, true⟩ } },
                 some (ConsumeResult.ok cid remoteProducerId))
              else (s, none)
  | _, _ => (s, none)

/-- The consumer lookup chain of `consumer-resume`:
`consumerInfo.get(peerKey)?.consumers.get(consumerId)`. -/
def peerConsumer (sock : SocketState) (consumerId : Nat) (s : ServerState) :
    Option ConsumerRec :=
  match sock.roomId, sock.username with
  | some roomId, some username =>
      (mget s.consumerInfo (peerKey roomId username)).bind
        (fun rec => mget rec.consumers consumerId)
  | _, _ => none

/-- Embeds `consumer-resume`: ignored pre-join; resumes the consumer if found,
silently does nothing otherwise. -/
def consumerResume (sock : SocketState) (consumerId : Nat) (s : ServerState) :
    ServerState :=
  match sock.roomId, sock.username with
  | some roomId, some username =>
      let pk := peerKey roomId username
      match mget s.consumerInfo pk with
      | none => s
      | some rec =>
          match mget rec.consumers consumerId with
          | none => s
          | some c =>
              { s with
                events := s.events ++ [Event.consumerResumed consumerId],
                consumerInfo := mset s.consumerInfo pk
                  { rec with
                    consumers := mset rec.consumers consumerId
                      { c with paused := false } } }
  | _, _ => s

/-- Embeds `hangup`: ignored pre-join; tears the caller's records down and emits
`peer-left` to the room. -/
def hangup (sock : SocketState) (s : ServerState) : ServerState :=
  match sock.roomId, sock.username with
  | some roomId, some username =>
      let s1 := cleanupPeer roomId username s
      { s1 with events := s1.events ++ [Event.peerLeft roomId username] }
  | _, _ => s

/-- Embeds `end-meeting`: guarded on `socket.roomId` only; when the durable room
record exists, tears down every listed peer, deletes the record, closes the
router, stops the HLS recording, clears the HLS-active flag and broadcasts
`meeting-ended`. -/
def endMeeting (sock : SocketState) (s : ServerState) : ServerState :=
  match sock.roomId with
  | none => s
  | some roomId =>
      match mget s.redis roomId with
      | none => s
      | some roomData =>
          let s1 := roomData.peers.foldl
            (fun st peer => cleanupPeer roomId peer st) s
          let s2 :=
            { s1 with
              redis := mdel s1.redis roomId,
              events := s1.events ++ [Event.routerClosed roomId] }
          let s3 := stopHlsRecording roomId s2
          { s3 with
            hlsActiveRooms := sdelete s3.hlsActiveRooms roomId,
            events := s3.events ++ [Event.meetingEnded roomId] }

/-- Embeds `disconnect`: ignored pre-join; tears the caller down, then updates the
durable peer list: if peers remain, persist and notify `peer-left`;
otherwise delete the record, close the router, stop the HLS recording and
clear the flag. -/
def disconnect (sock : SocketState) (s : ServerState) : ServerState :=
  match sock.roomId, sock.username with
  | some roomId, some username =>
      let s1 := cleanupPeer roomId username s
      match mget s1.redis roomId with
      | none => s1
      | some roomData =>
          let peers := roomData.peers.filter (fun p => p ≠ username)
          if peers.length > 0 then
            { s1 with
              redis := mset s1.redis roomId ⟨peers⟩,
              events := s1.events ++ [Event.peerLeft roomId username] }
          else
            let s2 :=
              { s1 with
                redis := mdel s1.redis roomId,
                events := s1.events ++ [Event.routerClosed roomId] }
            let s3 := stopHlsRecording roomId s2
            { s3 with hlsActiveRooms := sdelete s3.hlsActiveRooms roomId }
  | _, _ => s

/-! ## Event-trace observations -/

/-- Is an event an ffmpeg spawn? -/
def isSpawn : Event → Bool
  | Event.ffmpegSpawned _ => true
  | _ => false

/-- Is an event an HLS relay-consumer resume? -/
def isHlsResume : Event → Bool
  | Event.hlsConsumerResumed _ => true
  | _ => false

/-- Number of ffmpeg spawns in a trace. -/
def spawnCount (evs : List Event) : Nat :=
  (evs.filter isSpawn).length

/-- No HLS consumer resume occurs before the first ffmpeg spawn. -/
def noResumeBeforeSpawn : List Event → Bool
  | [] => true
  | e :: t =>
      if isSpawn e then true
      else if isHlsResume e then false
      else noResumeBeforeSpawn t

/-- Every HLS relay consumer in the trace is created paused. -/
def hlsConsumersPaused : List Event → Bool
  | [] => true
  | Event.hlsConsumerCreated _ _ b :: t => b && hlsConsumersPaused t
  | _ :: t => hlsConsumersPaused t

/-- Number of producer-close calls in a trace. -/
def producerCloseCount : List Event → Nat
  | [] => 0
  | Event.producerClosed _ :: t => 1 + producerCloseCount t
  | _ :: t => producerCloseCount t

/-! ## Concrete rooms, peers and states used as test inputs -/

def roomA : String := "r"

def alice : String := "alice"

def bob : String := "bob"

def sockAlice : SocketState := ⟨some roomA, some alice⟩

/-- Room flagged HLS-active, with an existing HLS session and a peer whose
producer transport is attached: the single-session configuration. -/
def stC1 : ServerState :=
  ⟨[(peerKey roomA alice, ⟨some 1, []⟩)], [], [roomA], [(roomA, ⟨[alice]⟩)],
   [(roomA, ⟨90, 91, 92⟩)], [], 10, []⟩

/-- Room with one peer, an active HLS session and an active injection
session: the configuration the room-deletion paths must clean up. -/
def stC2 : ServerState :=
  ⟨[], [], [roomA], [(roomA, ⟨[alice]⟩)], [(roomA, ⟨90, 91, 92⟩)],
   [(roomA, ⟨80, 81, 82, 83, 84⟩)], 10, []⟩

/-- Peer `alice` already holds an audio producer (id 5) behind transport 1;
the next fresh id is 10. -/
def stC3 : ServerState :=
  ⟨[(peerKey roomA alice, ⟨some 1, [(MediaKind.audio, ⟨5, alice⟩)]⟩)],
   [], [], [(roomA, ⟨[alice]⟩)], [], [], 10, []⟩

/-- Peer `alice` has a consumer transport (id 2) but the room has no
producers at all, so producer id 999 does not exist. -/
def stC4 : ServerState :=
  ⟨[], [(peerKey roomA alice, ⟨some 2, []⟩)], [], [(roomA, ⟨[alice]⟩)],
   [], [], 10, []⟩

/-- A room created by `bob` already exists; `alice` will now attempt a
creator join of the same room. -/
def stC5 : ServerState :=
  ⟨[], [], [], [(roomA, ⟨[bob]⟩)], [], [], 10, []⟩

/-- A state whose durable store holds no room record at all. -/
def stEmpty : ServerState := ⟨[], [], [], [], [], [], 0, []⟩

/-- Peer `bob` produces video stream 7; peer `alice` has a consumer
transport and no consumers yet. -/
def stC7 : ServerState :=
  ⟨[(peerKey roomA bob, ⟨some 1, [(MediaKind.video, ⟨7, bob⟩)]⟩)],
   [(peerKey roomA alice, ⟨some 2, []⟩)], [], [(roomA, ⟨[bob, alice]⟩)],
   [], [], 10, []⟩

/-! ## Frame lemmas -/

theorem cleanupPeer_frame (r u : String) (s : ServerState) :
    (cleanupPeer r u s).redis = s.redis ∧
    (cleanupPeer r u s).hlsSessions = s.hlsSessions ∧
    (cleanupPeer r u s).hlsActiveRooms = s.hlsActiveRooms ∧
    (cleanupPeer r u s).injectSessions = s.injectSessions ∧
    (cleanupPeer r u s).nextId = s.nextId := by
  unfold cleanupPeer
  cases hp : mget s.producerInfo (peerKey r u) <;>
    cases hc : mget s.consumerInfo (peerKey r u) <;>
      simp [hp, hc]

theorem cleanupPeer_producerInfo_none (r u : String) (s : ServerState) :
    mget (cleanupPeer r u s).producerInfo (peerKey r u) = none := by
  unfold cleanupPeer
  cases hp : mget s.producerInfo (peerKey r u) <;>
    cases hc : mget s.consumerInfo (peerKey r u) <;>
      simp [hp, hc, mget_mdel_self]

theorem cleanupPeer_consumerInfo_none (r u : String) (s : ServerState) :
    mget (cleanupPeer r u s).consumerInfo (peerKey r u) = none := by
  unfold cleanupPeer
  cases hp : mget s.producerInfo (peerKey r u) <;>
    cases hc : mget s.consumerInfo (peerKey r u) <;>
      simp [hp, hc, mget_mdel_self]

theorem foldl_cleanupPeer_frame (r : String) (peers : List String)
    (s : ServerState) :
    (peers.foldl (fun st p => cleanupPeer r p st) s).redis = s.redis ∧
    (peers.foldl (fun st p => cleanupPeer r p st) s).hlsSessions =
      s.hlsSessions ∧
    (peers.foldl (fun st p => cleanupPeer r p st) s).hlsActiveRooms =
      s.hlsActiveRooms ∧
    (peers.foldl (fun st p => cleanupPeer r p st) s).injectSessions =
      s.injectSessions := by
  induction peers generalizing s with
  | nil => simp
  | cons p t ih =>
    obtain ⟨h1, h2, h3, h4, _⟩ := cleanupPeer_frame r p s
    obtain ⟨g1, g2, g3, g4⟩ := ih (cleanupPeer r p s)
    simp only [List.foldl_cons]
    exact ⟨g1.trans h1, g2.trans h2, g3.trans h3, g4.trans h4⟩

theorem stopHlsRecording_frame (r : String) (s : ServerState) :
    (stopHlsRecording r s).redis = s.redis ∧
    (stopHlsRecording r s).hlsActiveRooms = s.hlsActiveRooms ∧
    (stopHlsRecording r s).injectSessions = s.injectSessions := by
  unfold stopHlsRecording
  cases h : mget s.hlsSessions r <;> simp [h]

theorem stopHlsRecording_mget_none (r : String) (s : ServerState) :
    mget (stopHlsRecording r s).hlsSessions r = none := by
  unfold stopHlsRecording
  cases h : mget s.hlsSessions r <;> simp [h, mget_mdel_self]

theorem spawnCount_append (a b : List Event) :
    spawnCount (a ++ b) = spawnCount a + spawnCount b := by
  simp [spawnCount, List.filter_append]

theorem producerCloseCount_append (a b : List Event) :
    producerCloseCount (a ++ b) =
      producerCloseCount a + producerCloseCount b := by
  induction a with
  | nil => simp [producerCloseCount]
  | cons e t ih =>
    cases e <;> simp [producerCloseCount, ih, Nat.add_assoc]

/-! ## Claim C6 -/

/-- C6: peer teardown is idempotent.  After one `cleanupPeer(room, username)`
the peer's producer and consumer records are gone, so a second invocation
(hangup twice, or disconnect then hangup) finds nothing, performs no further
close calls, and changes nothing: `cleanupPeer` composed with itself equals
a single invocation (the resulting states — event traces included — are
equal, so no further close events are emitted and nothing throws). -/
theorem cleanupPeer_idempotent (r u : String) (s : ServerState) :
    cleanupPeer r u (cleanupPeer r u s) = cleanupPeer r u s ∧
    mget (cleanupPeer r u s).producerInfo (peerKey r u) = none ∧
    mget (cleanupPeer r u s).consumerInfo (peerKey r u) = none := by
  refine ⟨?_, cleanupPeer_producerInfo_none r u s,
    cleanupPeer_consumerInfo_none r u s⟩
  have hp := cleanupPeer_producerInfo_none r u s
  have hc := cleanupPeer_consumerInfo_none r u s
  generalize hgen : cleanupPeer r u s = t at hp hc ⊢
  unfold cleanupPeer
  simp [hp, hc]

/-! ## Claim C1 -/

/-- C1: at most one active HLS playback session per room.  (a) A video
`transport-produce` starts a session only when the room is not flagged in
`hlsActiveRooms`: when the flag is set, the session map is untouched and no
ffmpeg spawn occurs.  (b) `startHlsRecording` leaves exactly one session
record for the room, and (c) when a session already existed it is torn down
(ffmpeg killed, consumer closed, relay transport closed, entry deleted)
before the new session's resources are created, as the event trace shows. -/
theorem hls_at_most_one_session (sock : SocketState) (kind : MediaKind)
    (appU roomId : String) (pid : Nat) (s : ServerState) :
    (sock.roomId = some roomId → roomId ∈ s.hlsActiveRooms →
      (transportProduce sock kind appU s).1.hlsSessions = s.hlsSessions ∧
      spawnCount (transportProduce sock kind appU s).1.events =
        spawnCount s.events) ∧
    countKeys (startHlsRecording roomId pid s).hlsSessions roomId = 1 ∧
    (∀ prev, mget s.hlsSessions roomId = some prev →
      (startHlsRecording roomId pid s).events =
        s.events ++
          [Event.ffmpegKilled prev.ffmpeg,
           Event.consumerClosed prev.consumer,
           Event.transportClosed prev.plainTransport,
           Event.plainTransportCreated s.nextId,
           Event.hlsConsumerCreated (s.nextId + 1) pid true,
           Event.sdpWritten roomId,
           Event.ffmpegSpawned (s.nextId + 2),
           Event.hlsConsumerResumed (s.nextId + 1)] ∧
      mget (startHlsRecording roomId pid s).hlsSessions roomId =
        some ⟨s.nextId + 2, s.nextId, s.nextId + 1⟩) := by
  refine ⟨?_, ?_, ?_⟩
  · intro h1 h2
    obtain ⟨sr, su⟩ := sock
    have h1' : sr = some roomId := h1
    subst h1'
    cases su with
    | none => exact ⟨rfl, rfl⟩
    | some u =>
      simp only [transportProduce]
      cases hp : mget s.producerInfo (peerKey roomId u) with
      | none => simp
      | some rec =>
        cases ht : rec.producerTransport with
        | none => simp [ht]
        | some t =>
          by_cases hk : kind = MediaKind.video
          · subst hk
            simp [ht, h2, spawnCount_append, spawnCount, isSpawn]
          · simp [ht, hk, spawnCount_append, spawnCount, isSpawn]
  · unfold startHlsRecording
    cases hprev : mget s.hlsSessions roomId <;>
      simp [hprev, countKeys_mset_self]
  · intro prev hprev
    unfold startHlsRecording
    simp [hprev, mget_mset_self]

/-! ## Claim C8 -/

/-- C8: in every successful `startHlsRecording` run the relay consumer is
created with `paused: true`, and `consumer.resume()` happens only after the
ffmpeg subprocess has been spawned: in the events this run appends, every
created HLS consumer is paused, no resume precedes the first spawn, and both
a spawn and a resume do occur. -/
theorem hls_resume_after_spawn (roomId : String) (pid : Nat)
    (s : ServerState) :
    hlsConsumersPaused
      ((startHlsRecording roomId pid s).events.drop s.events.length) = true ∧
    noResumeBeforeSpawn
      ((startHlsRecording roomId pid s).events.drop s.events.length) = true ∧
    ((startHlsRecording roomId pid s).events.drop s.events.length).any
      isSpawn = true ∧
    ((startHlsRecording roomId pid s).events.drop s.events.length).any
      isHlsResume = true := by
  unfold startHlsRecording
  cases hprev : mget s.hlsSessions roomId <;>
    simp [hprev, List.append_assoc, drop_length_append,
      hlsConsumersPaused, noResumeBeforeSpawn, isSpawn, isHlsResume]

/-! ## Claim C9 -/

/-- C9: `hangup` mutates only the caller's in-memory producer/consumer
records and emits a `peer-left` notification; it never reads or writes the
durable room record, so the departed peer's stored membership is untouched
and hangup alone never deletes a room (the Redis map, the HLS/injection
session maps, the HLS flag set and the id supply are all unchanged, and for
a joined socket the result is exactly `cleanupPeer` plus the `peer-left`
event). -/
theorem hangup_touches_only_peer_records (sock : SocketState)
    (s : ServerState) :
    (hangup sock s).redis = s.redis ∧
    (hangup sock s).hlsSessions = s.hlsSessions ∧
    (hangup sock s).hlsActiveRooms = s.hlsActiveRooms ∧
    (hangup sock s).injectSessions = s.injectSessions ∧
    (hangup sock s).nextId = s.nextId ∧
    (∀ r u, sock.roomId = some r → sock.username = some u →
      hangup sock s =
        { cleanupPeer r u s with
          events := (cleanupPeer r u s).events ++ [Event.peerLeft r u] }) := by
  obtain ⟨sr, su⟩ := sock
  cases sr with
  | none => simp [hangup]
  | some r0 =>
    cases su with
    | none => simp [hangup]
    | some u0 =>
      obtain ⟨h1, h2, h3, h4, h5⟩ := cleanupPeer_frame r0 u0 s
      refine ⟨by simp [hangup, h1], by simp [hangup, h2],
        by simp [hangup, h3], by simp [hangup, h4], by simp [hangup, h5], ?_⟩
      intro r u hr hu
      obtain rfl : r0 = r := by simpa using hr
      obtain rfl : u0 = u := by simpa using hu
      rfl

/-! ## Claim C10 -/

/-- C10: every signaling message arriving on a connection that has not
completed a join (no `roomId`/`username` on the socket) is ignored: the
handler returns with the state unchanged and, for acknowledged requests,
without invoking the callback (`none`), so the caller gets no response at
all rather than an error. -/
theorem unjoined_messages_ignored (s : ServerState) (kind : MediaKind)
    (appU : String) (pid cid : Nat) (compat : Bool) :
    createWebRTCTransport ⟨none, none⟩ s = (s, none) ∧
    transportConnect ⟨none, none⟩ s = s ∧
    transportRecvConnect ⟨none, none⟩ s = s ∧
    transportProduce ⟨none, none⟩ kind appU s = (s, none) ∧
    consume ⟨none, none⟩ pid compat s = (s, none) ∧
    consumerResume ⟨none, none⟩ cid s = s ∧
    hangup ⟨none, none⟩ s = s ∧
    endMeeting ⟨none, none⟩ s = s ∧
    disconnect ⟨none, none⟩ s = s :=
  ⟨rfl, rfl, rfl, rfl, rfl, rfl, rfl, rfl, rfl⟩

/-! ## Claim C7 -/

/-- C7: every consumer the `consume` handler records is created with
`paused: true` (a successful acknowledgement `ok cid pid` implies the stored
record for `cid` is `⟨pid, paused := true⟩`), and a `consumer-resume` whose
consumer id is not in the caller's consumer map leaves the state untouched
and raises no error. -/
theorem consume_paused_resume_noop (sock : SocketState) (pid : Nat)
    (compat : Bool) (s : ServerState) (cid pid' : Nat) :
    ((consume sock pid compat s).2 = some (ConsumeResult.ok cid pid') →
      peerConsumer sock cid (consume sock pid compat s).1 =
        some ⟨pid', true⟩) ∧
    (peerConsumer sock cid s = none → consumerResume sock cid s = s) := by
  obtain ⟨sr, su⟩ := sock
  constructor
  · intro h
    cases sr with
    | none => simp [consume] at h
    | some r =>
      cases su with
      | none => simp [consume] at h
      | some u =>
        simp only [consume] at h ⊢
        cases hc : mget s.consumerInfo (peerKey r u) with
        | none => simp [hc] at h
        | some rec =>
          cases ht : rec.consumerTransport with
          | none => simp [hc, ht] at h
          | some t =>
            by_cases hcc : canConsume s pid compat = true
            · simp only [hc, ht, hcc, if_true] at h ⊢
              obtain ⟨hcid, hpid⟩ : s.nextId = cid ∧ pid = pid' := by
                simpa using h
              subst hcid
              subst hpid
              simp [peerConsumer, mget_mset_self]
            · simp [hc, ht, hcc] at h
  · intro h
    cases sr with
    | none => rfl
    | some r =>
      cases su with
      | none => rfl
      | some u =>
        simp only [peerConsumer] at h
        cases hc : mget s.consumerInfo (peerKey r u) with
        | none => simp [consumerResume, hc]
        | some rec =>
          rw [hc] at h
          simp only [Option.some_bind] at h
          simp [consumerResume, hc, h]

/-! ## Further frame lemmas for the HLS supervisor -/

theorem startHls_producerInfo (r : String) (pid : Nat) (s : ServerState) :
    (startHlsRecording r pid s).producerInfo = s.producerInfo := by
  unfold startHlsRecording
  cases h : mget s.hlsSessions r <;> simp [h]

theorem startHls_pcc (r : String) (pid : Nat) (s : ServerState) :
    producerCloseCount (startHlsRecording r pid s).events =
      producerCloseCount s.events := by
  unfold startHlsRecording
  cases h : mget s.hlsSessions r <;>
    simp [h, producerCloseCount_append, producerCloseCount]

/-! ## Claim C2 (corrected) -/

/-- C2 counterexample: ending the meeting for a room with an active
injection session leaves the injection session in place — its record
survives untouched and its ffmpeg subprocess (pid 80) is never signalled —
so "any active injection session for that room is stopped" is false. -/
theorem room_deletion_keeps_injection :
    mget (endMeeting sockAlice stC2).injectSessions roomA =
      some ⟨80, 81, 82, 83, 84⟩ ∧
    Event.ffmpegKilled 80 ∉ (endMeeting sockAlice stC2).events := by
  decide

/-- C2 amended: whenever a room is deleted — an `end-meeting` that finds the
durable room record, or a disconnect that empties the stored peer list — the
active HLS playback session for that room is stopped (its map entry removed)
and the HLS-active flag cleared, but injection sessions are NOT stopped: the
injection session map is completely unchanged by room deletion. -/
theorem room_deletion_stops_playback_only (sock : SocketState)
    (s : ServerState) (r u : String) (rd : RoomData) :
    (sock.roomId = some r → mget s.redis r = some rd →
      mget (endMeeting sock s).hlsSessions r = none ∧
      r ∉ (endMeeting sock s).hlsActiveRooms ∧
      (endMeeting sock s).injectSessions = s.injectSessions) ∧
    (sock.roomId = some r → sock.username = some u →
      mget s.redis r = some rd →
      rd.peers.filter (fun p => p ≠ u) = [] →
      mget (disconnect sock s).hlsSessions r = none ∧
      r ∉ (disconnect sock s).hlsActiveRooms ∧
      (disconnect sock s).injectSessions = s.injectSessions) := by
  obtain ⟨sr, su⟩ := sock
  constructor
  · intro h1 h2
    have h1' : sr = some r := h1
    subst h1'
    simp only [endMeeting, h2]
    refine ⟨?_, ?_, ?_⟩
    · simpa using stopHlsRecording_mget_none r _
    · simpa using not_mem_sdelete_self _ r
    · show (stopHlsRecording r _).injectSessions = s.injectSessions
      rw [(stopHlsRecording_frame r _).2.2]
      exact (foldl_cleanupPeer_frame r rd.peers s).2.2.2
  · intro h1 h2 h3 h4
    have h1' : sr = some r := h1
    subst h1'
    have h2' : su = some u := h2
    subst h2'
    obtain ⟨c1, c2, c3, c4, c5⟩ := cleanupPeer_frame r u s
    simp only [disconnect, c1, h3, h4]
    simp only [List.length_nil, Nat.lt_irrefl, if_false]
    refine ⟨?_, ?_, ?_⟩
    · simpa using stopHlsRecording_mget_none r _
    · simpa using not_mem_sdelete_self _ r
    · show (stopHlsRecording r _).injectSessions = s.injectSessions
      rw [(stopHlsRecording_frame r _).2.2]
      exact c4

/-- C2 amended, witnessed at the concrete room/session state `stC2` for
both deletion paths. -/
theorem room_deletion_stops_playback_only_witness :
    (mget (endMeeting sockAlice stC2).hlsSessions roomA = none ∧
     roomA ∉ (endMeeting sockAlice stC2).hlsActiveRooms ∧
     (endMeeting sockAlice stC2).injectSessions = stC2.injectSessions) ∧
    (mget (disconnect sockAlice stC2).hlsSessions roomA = none ∧
     roomA ∉ (disconnect sockAlice stC2).hlsActiveRooms ∧
     (disconnect sockAlice stC2).injectSessions = stC2.injectSessions) :=
  ⟨(room_deletion_stops_playback_only sockAlice stC2 roomA alice
      ⟨[alice]⟩).1 rfl (by decide),
   (room_deletion_stops_playback_only sockAlice stC2 roomA alice
      ⟨[alice]⟩).2 rfl rfl (by decide) (by decide)⟩

/-! ## Claim C3 (corrected) -/

/-- C3 counterexample: producing a second audio stream for a peer that
already has producer 5 of that kind records the new producer (id 10) in its
place, but no close call for producer 5 is ever made — the handler simply
overwrites the map entry, so "the previous producer's resources are closed
before the new producer is recorded" is false. -/
theorem produce_overwrite_never_closes :
    Event.producerClosed 5 ∉
      (transportProduce sockAlice MediaKind.audio alice stC3).1.events ∧
    mget (transportProduce sockAlice MediaKind.audio alice stC3).1.producerInfo
        (peerKey roomA alice) =
      some ⟨some 1, [(MediaKind.audio, ⟨10, alice⟩)]⟩ := by
  decide

/-- C3 amended: for a joined peer whose producer transport exists, a
`transport-produce` of kind `k` records the freshly created producer under
`k`, replacing any previous producer of that kind in the map — but the
previous producer is NOT closed: the run performs no producer-close call at
all (the producer-close count of the trace is unchanged) — and the
acknowledgement carries the new producer's id. -/
theorem produce_overwrites_without_close (sock : SocketState)
    (kind : MediaKind) (appU : String) (s : ServerState) (r u : String)
    (rec : PeerProducerInfo) (t : Nat) :
    sock.roomId = some r → sock.username = some u →
    mget s.producerInfo (peerKey r u) = some rec →
    rec.producerTransport = some t →
    mget (transportProduce sock kind appU s).1.producerInfo (peerKey r u) =
      some { rec with
             producers := mset rec.producers kind ⟨s.nextId, appU⟩ } ∧
    producerCloseCount (transportProduce sock kind appU s).1.events =
      producerCloseCount s.events ∧
    (transportProduce sock kind appU s).2 =
      some (ProduceResult.ok s.nextId) := by
  intro h1 h2 hp ht
  obtain ⟨sr, su⟩ := sock
  have h1' : sr = some r := h1
  subst h1'
  have h2' : su = some u := h2
  subst h2'
  simp only [transportProduce, hp, ht]
  by_cases hk : kind = MediaKind.video
  · subst hk
    by_cases hflag : r ∈ s.hlsActiveRooms
    · simp [hflag, mget_mset_self, producerCloseCount_append,
        producerCloseCount]
    · simp [hflag, startHls_producerInfo, startHls_pcc, mget_mset_self,
        producerCloseCount_append, producerCloseCount]
  · simp [hk, mget_mset_self, producerCloseCount_append, producerCloseCount]

/-- C3 amended, witnessed at `stC3`: the stored audio producer 5 is
replaced by producer 10 with no producer-close call. -/
theorem produce_overwrites_without_close_witness :
    mget (transportProduce sockAlice MediaKind.audio alice stC3).1.producerInfo
        (peerKey roomA alice) =
      some ⟨some 1, [(MediaKind.audio, ⟨10, alice⟩)]⟩ ∧
    producerCloseCount
        (transportProduce sockAlice MediaKind.audio alice stC3).1.events =
      producerCloseCount stC3.events ∧
    (transportProduce sockAlice MediaKind.audio alice stC3).2 =
      some (ProduceResult.ok 10) :=
  produce_overwrites_without_close sockAlice MediaKind.audio alice stC3
    roomA alice ⟨some 1, [(MediaKind.audio, ⟨5, alice⟩)]⟩ 1
    rfl rfl (by decide) rfl

/-! ## Claim C4 (corrected) -/

/-- C4 counterexample: a consume request for the nonexistent producer 999
creates no consumer and does not crash, but the acknowledgement callback is
never invoked (`none`) — the claim that it "is invoked with an error" is
false: the handler's `if (router.canConsume(...))` has no else branch. -/
theorem consume_unknown_producer_no_ack :
    producerExists stC4 999 = false ∧
    (consume sockAlice 999 true stC4).2 = none ∧
    (consume sockAlice 999 true stC4).1 = stC4 := by
  decide

/-- C4 amended: for a joined caller whose consumer transport exists, a
consume request that fails the engine's `canConsume` check (producer id
unknown, or capabilities incompatible) creates no consumer and mutates
nothing and the handler does not crash — but no acknowledgement is sent at
all: the callback is not invoked, with neither a success nor an error
payload. -/
theorem consume_unknown_producer_silent (sock : SocketState) (pid : Nat)
    (compat : Bool) (s : ServerState) (r u : String)
    (rec : PeerConsumerInfo) (t : Nat) :
    sock.roomId = some r → sock.username = some u →
    mget s.consumerInfo (peerKey r u) = some rec →
    rec.consumerTransport = some t →
    canConsume s pid compat = false →
    consume sock pid compat s = (s, none) := by
  intro h1 h2 hc ht hcc
  obtain ⟨sr, su⟩ := sock
  have h1' : sr = some r := h1
  subst h1'
  have h2' : su = some u := h2
  subst h2'
  simp [consume, hc, ht, hcc]

/-- C4 amended, witnessed at `stC4` with the nonexistent producer 999. -/
theorem consume_unknown_producer_silent_witness :
    consume sockAlice 999 true stC4 = (stC4, none) :=
  consume_unknown_producer_silent sockAlice 999 true stC4 roomA alice
    ⟨some 2, []⟩ 2 rfl rfl (by decide) rfl (by decide)

/-! ## Claim C5 (corrected) -/

/-- C5 counterexample: a creator join of an existing room returns the
"Room already exists." error, yet alice's empty producer and consumer
records ARE registered — `joinRoom` stores them before the room-existence
check — so "the peer's producer/consumer records are registered only on a
successful join" is false. -/
theorem failed_join_leaves_records :
    (joinRoom alice roomA true stC5).2.error = some errRoomExists ∧
    mget (joinRoom alice roomA true stC5).1.producerInfo
      (peerKey roomA alice) = some ⟨none, []⟩ ∧
    mget (joinRoom alice roomA true stC5).1.consumerInfo
      (peerKey roomA alice) = some ⟨none, []⟩ := by
  decide

/-- C5 amended: a failed join (creator join of an existing room, or
non-creator join of a missing room) returns an error in the acknowledgement
and leaves the durable room record unchanged, but the peer's empty
producer/consumer records are registered unconditionally before the
existence check and remain registered after the failure. -/
theorem failed_join_error_but_registers (username roomId : String)
    (s : ServerState) :
    ((mget s.redis roomId).isSome = true →
      (joinRoom username roomId true s).2.error = some errRoomExists ∧
      (joinRoom username roomId true s).1.redis = s.redis ∧
      mget (joinRoom username roomId true s).1.producerInfo
        (peerKey roomId username) = some ⟨none, []⟩ ∧
      mget (joinRoom username roomId true s).1.consumerInfo
        (peerKey roomId username) = some ⟨none, []⟩) ∧
    ((mget s.redis roomId).isSome = false →
      (joinRoom username roomId false s).2.error = some errRoomNotFound ∧
      (joinRoom username roomId false s).1.redis = s.redis ∧
      mget (joinRoom username roomId false s).1.producerInfo
        (peerKey roomId username) = some ⟨none, []⟩ ∧
      mget (joinRoom username roomId false s).1.consumerInfo
        (peerKey roomId username) = some ⟨none, []⟩) := by
  constructor
  · intro h
    simp [joinRoom, h, mget_mset_self]
  · intro h
    simp [joinRoom, h, mget_mset_self]

/-- C5 amended, witnessed on both failure paths: the creator join at the
populated `stC5` and the non-creator join at the empty-store state. -/
theorem failed_join_error_but_registers_witness :
    ((joinRoom alice roomA true stC5).2.error = some errRoomExists ∧
     (joinRoom alice roomA true stC5).1.redis = stC5.redis ∧
     mget (joinRoom alice roomA true stC5).1.producerInfo
       (peerKey roomA alice) = some ⟨none, []⟩ ∧
     mget (joinRoom alice roomA true stC5).1.consumerInfo
       (peerKey roomA alice) = some ⟨none, []⟩) ∧
    ((joinRoom alice roomA false stEmpty).2.error = some errRoomNotFound ∧
     (joinRoom alice roomA false stEmpty).1.redis = stEmpty.redis ∧
     mget (joinRoom alice roomA false stEmpty).1.producerInfo
       (peerKey roomA alice) = some ⟨none, []⟩ ∧
     mget (joinRoom alice roomA false stEmpty).1.consumerInfo
       (peerKey roomA alice) = some ⟨none, []⟩) :=
  ⟨(failed_join_error_but_registers alice roomA stC5).1 (by decide),
   (failed_join_error_but_registers alice roomA stEmpty).2 (by decide)⟩

/-! ## Witnesses for the confirmed claims with hypotheses -/

/-- C1 witnessed at `stC1`: with the room already flagged, a video produce
spawns nothing and leaves the session map alone; restarting the recording
for the room with the live session (ffmpeg 90, transport 91, consumer 92)
tears the old session down first and leaves exactly one session record. -/
theorem hls_at_most_one_session_witness :
    ((transportProduce sockAlice MediaKind.video alice stC1).1.hlsSessions =
       stC1.hlsSessions ∧
     spawnCount (transportProduce sockAlice MediaKind.video alice
       stC1).1.events = spawnCount stC1.events) ∧
    countKeys (startHlsRecording roomA 7 stC1).hlsSessions roomA = 1 ∧
    ((startHlsRecording roomA 7 stC1).events =
       stC1.events ++
         [Event.ffmpegKilled 90, Event.consumerClosed 92,
          Event.transportClosed 91, Event.plainTransportCreated 10,
          Event.hlsConsumerCreated 11 7 true, Event.sdpWritten roomA,
          Event.ffmpegSpawned 12, Event.hlsConsumerResumed 11] ∧
     mget (startHlsRecording roomA 7 stC1).hlsSessions roomA =
       some ⟨12, 10, 11⟩) :=
  ⟨(hls_at_most_one_session sockAlice MediaKind.video alice roomA 7 stC1).1
      rfl (by decide),
   (hls_at_most_one_session sockAlice MediaKind.video alice roomA 7
      stC1).2.1,
   (hls_at_most_one_session sockAlice MediaKind.video alice roomA 7
      stC1).2.2 ⟨90, 91, 92⟩ (by decide)⟩

/-- C7 witnessed at `stC7`: consuming bob's producer 7 stores consumer 10
paused, and resuming the unknown consumer 99 is a state-preserving no-op. -/
theorem consume_paused_resume_noop_witness :
    peerConsumer sockAlice 10 (consume sockAlice 7 true stC7).1 =
      some ⟨7, true⟩ ∧
    consumerResume sockAlice 99 stC7 = stC7 :=
  ⟨(consume_paused_resume_noop sockAlice 7 true stC7 10 7).1 (by decide),
   (consume_paused_resume_noop sockAlice 7 true stC7 99 0).2 (by decide)⟩

/-- C9 witnessed at `stC3`: hanging up alice leaves the Redis record, the
session maps, the flag set and the id supply untouched, and equals
`cleanupPeer` plus the `peer-left` event. -/
theorem hangup_touches_only_peer_records_witness :
    (hangup sockAlice stC3).redis = stC3.redis ∧
    (hangup sockAlice stC3).hlsSessions = stC3.hlsSessions ∧
    (hangup sockAlice stC3).hlsActiveRooms = stC3.hlsActiveRooms ∧
    (hangup sockAlice stC3).injectSessions = stC3.injectSessions ∧
    (hangup sockAlice stC3).nextId = stC3.nextId ∧
    hangup sockAlice stC3 =
      { cleanupPeer roomA alice stC3 with
        events := (cleanupPeer roomA alice stC3).events ++
          [Event.peerLeft roomA alice] } :=
  ⟨(hangup_touches_only_peer_records sockAlice stC3).1,
   (hangup_touches_only_peer_records sockAlice stC3).2.1,
   (hangup_touches_only_peer_records sockAlice stC3).2.2.1,
   (hangup_touches_only_peer_records sockAlice stC3).2.2.2.1,
   (hangup_touches_only_peer_records sockAlice stC3).2.2.2.2.1,
   (hangup_touches_only_peer_records sockAlice stC3).2.2.2.2.2
     roomA alice rfl rfl⟩

end Connected
